import Mathlib

/-!
Shallow embedding of the N-body gravitational simulation kernel from
src/examples/07-scientific-compute/simulation.py.

Python floats are modelled by real numbers, Python lists by Lean lists.
In-place mutation of the body store is modelled by returning the updated
store; functions that only read the store return it unchanged together
with their value.  The per-pair inner loop of compute_forces and the
potential-energy loop of compute_total_energy iterate over the canonical
pair order i < j produced by the nested ranges of the source.
-/

noncomputable section

/-- Celestial body record: position, velocity, mass (simulation.py, class Body). -/
structure Body where
  x : ℝ
  y : ℝ
  z : ℝ
  vx : ℝ
  vy : ℝ
  vz : ℝ
  mass : ℝ

/-- Placeholder body used as the default for out-of-range list reads
(Python raises IndexError there; every access in the embedded code is in range). -/
def dummyBody : Body := ⟨0, 0, 0, 0, 0, 0, 0⟩

/-- Body.kinetic_energy: 0.5 * m * v^2. -/
def Body.kinetic_energy (b : Body) : ℝ :=
  0.5 * b.mass * (b.vx ^ 2 + b.vy ^ 2 + b.vz ^ 2)

/-- Gravitational constant G = 6.67430e-11 (simulation.py). -/
def G : ℝ := 6.67430e-11

/-- Softening floor: the 1e6 m minimum distance of compute_forces and the
matching threshold of compute_total_energy. -/
def r_min : ℝ := 1e6

/-- Force vectors are 3-component tuples, as in the Python source. -/
abbrev Vec3 := ℝ × ℝ × ℝ

/-- The zero force vector (0.0, 0.0, 0.0). -/
def vzero : Vec3 := (0, 0, 0)

/-- Componentwise sum of 3-vectors. -/
def vadd (a b : Vec3) : Vec3 := (a.1 + b.1, a.2.1 + b.2.1, a.2.2 + b.2.2)

/-- Componentwise difference of 3-vectors. -/
def vsub (a b : Vec3) : Vec3 := (a.1 - b.1, a.2.1 - b.2.1, a.2.2 - b.2.2)

/-- Componentwise negation of a 3-vector. -/
def vneg (a : Vec3) : Vec3 := (-a.1, -a.2.1, -a.2.2)

/-- Squared separation dx^2 + dy^2 + dz^2 of a body pair (compute_forces). -/
def raw_r_squared (bi bj : Body) : ℝ :=
  (bj.x - bi.x) ^ 2 + (bj.y - bi.y) ^ 2 + (bj.z - bi.z) ^ 2

/-- The distance r used by compute_forces after the softening branch:
r = sqrt(r_squared), clamped up to r_min when r < r_min. -/
def softened_r (bi bj : Body) : ℝ :=
  if Real.sqrt (raw_r_squared bi bj) < r_min then r_min
  else Real.sqrt (raw_r_squared bi bj)

/-- The squared distance used by compute_forces after the softening branch:
the branch also resets r_squared to r_min^2. -/
def softened_r_squared (bi bj : Body) : ℝ :=
  if Real.sqrt (raw_r_squared bi bj) < r_min then r_min ^ 2
  else raw_r_squared bi bj

/-- The (fx, fy, fz) contribution of one pair in compute_forces:
force_magnitude = G*m_i*m_j/r_squared, decomposed along (dx/r, dy/r, dz/r). -/
def pair_force (bi bj : Body) : Vec3 :=
  (G * bi.mass * bj.mass / softened_r_squared bi bj * (bj.x - bi.x) / softened_r bi bj,
   G * bi.mass * bj.mass / softened_r_squared bi bj * (bj.y - bi.y) / softened_r bi bj,
   G * bi.mass * bj.mass / softened_r_squared bi bj * (bj.z - bi.z) / softened_r bi bj)

/-- The canonical pair order of the source: outer i in range(n),
inner j in range(i+1, n). -/
def pair_indices (n : ℕ) : List (ℕ × ℕ) :=
  (List.range n).flatMap fun i => ((List.range n).drop (i + 1)).map fun j => (i, j)

/-- Body of the inner loop of compute_forces for one pair (i, j):
forces[i] += (fx, fy, fz); forces[j] -= (fx, fy, fz). -/
def apply_pair (bodies : List Body) (forces : List Vec3) (i j : ℕ) : List Vec3 :=
  let f := pair_force (bodies.getD i dummyBody) (bodies.getD j dummyBody)
  let forces₁ := forces.set i (vadd (forces.getD i vzero) f)
  forces₁.set j (vsub (forces₁.getD j vzero) f)

/-- compute_forces: all-pairs gravitational forces with Newton's third law. -/
def compute_forces (bodies : List Body) : List Vec3 :=
  (pair_indices bodies.length).foldl
    (fun forces ij => apply_pair bodies forces ij.1 ij.2)
    (List.replicate bodies.length vzero)

/-- update_velocities: v += (F/m) * dt for every body, in place. -/
def update_velocities (bodies : List Body) (forces : List Vec3) (dt : ℝ) : List Body :=
  List.zipWith
    (fun b f =>
      { b with
        vx := b.vx + f.1 / b.mass * dt
        vy := b.vy + f.2.1 / b.mass * dt
        vz := b.vz + f.2.2 / b.mass * dt })
    bodies forces

/-- update_positions: x += v * dt for every body, in place. -/
def update_positions (bodies : List Body) (dt : ℝ) : List Body :=
  bodies.map fun b =>
    { b with
      x := b.x + b.vx * dt
      y := b.y + b.vy * dt
      z := b.z + b.vz * dt }

/-- One Integrator pass as invoked by run_simulation:
update_velocities followed by update_positions on the updated store. -/
def integrate_step (bodies : List Body) (forces : List Vec3) (dt : ℝ) : List Body :=
  update_positions (update_velocities bodies forces dt) dt

/-- One iteration of the main loop of run_simulation:
compute_forces, then update_velocities, then update_positions. -/
def simulation_step (bodies : List Body) (dt : ℝ) : List Body :=
  integrate_step bodies (compute_forces bodies) dt

/-- The main loop of run_simulation: num_steps iterations of simulation_step. -/
def simulate : List Body → ℕ → ℝ → List Body
  | bodies, 0, _ => bodies
  | bodies, n + 1, dt => simulate (simulation_step bodies dt) n dt

/-- The potential contribution of one pair in compute_total_energy:
subtract G*m_i*m_j/r only when r > 1e6, otherwise skip the pair. -/
def pair_potential (bi bj : Body) : ℝ :=
  if Real.sqrt (raw_r_squared bi bj) > r_min then
    -(G * bi.mass * bj.mass / Real.sqrt (raw_r_squared bi bj))
  else 0

/-- The pair loop of compute_total_energy, threading the body store through
each iteration: every iteration only reads the store and adds the pair's
potential contribution to the accumulator. -/
def potential_loop : List Body → ℝ → List (ℕ × ℕ) → List Body × ℝ
  | store, acc, [] => (store, acc)
  | store, acc, ij :: rest =>
      potential_loop store
        (acc + pair_potential (store.getD ij.1 dummyBody) (store.getD ij.2 dummyBody)) rest

/-- compute_total_energy: returns the body store after the call together with
the (kinetic, potential, total) triple the Python function returns. -/
def compute_total_energy (bodies : List Body) : List Body × (ℝ × ℝ × ℝ) :=
  let kinetic := (bodies.map Body.kinetic_energy).sum
  let p := potential_loop bodies 0 (pair_indices bodies.length)
  (p.1, (kinetic, p.2, kinetic + p.2))

/-- The error kind the specification's driver design can raise. -/
inductive SimulationError where
  | configurationError

/-- Observable outcome of run_simulation: the final body store and the
energy-related fields of the returned result dictionary. -/
structure RunResult where
  finalBodies : List Body
  energyInitial : ℝ × ℝ × ℝ
  energyFinal : ℝ × ℝ × ℝ
  energyErrorPercent : ℝ

/-- create_solar_system: a central body of mass 1.989e30 at rest at the origin,
followed by num_bodies - 1 generated orbiting bodies.  The seeded random
draws that build each orbiting body are abstracted by the stream randB. -/
def create_solar_system (randB : ℕ → Body) (num_bodies : ℤ) : List Body :=
  Body.mk 0 0 0 0 0 0 1.989e30 :: (List.range (num_bodies - 1).toNat).map randB

/-- run_simulation: create the system, take the initial energy sample, run
num_steps iterations of the step loop (range(num_steps) is empty when
num_steps < 0, hence toNat), take the final energy sample, and return.
The source contains no parameter validation and no raise statement, so the
embedding always returns Except.ok; timing and printing are omitted. -/
def run_simulation (randB : ℕ → Body) (num_bodies num_steps : ℤ) (dt : ℝ) :
    Except SimulationError RunResult :=
  let bodies := create_solar_system randB num_bodies
  let init := compute_total_energy bodies
  let finalBodies := simulate init.1 num_steps.toNat dt
  let fin := compute_total_energy finalBodies
  let energyError := |fin.2.2.2 - init.2.2.2| / |init.2.2.2| * 100
  Except.ok ⟨fin.1, init.2, fin.2, energyError⟩

/-- Whether a driver outcome is a raised ConfigurationError. -/
def is_configuration_error : Except SimulationError RunResult → Bool
  | Except.error _ => true
  | Except.ok _ => false

/-- A concrete stand-in for the abstracted random body stream, used at
concrete instantiations. -/
def default_rand : ℕ → Body := fun _ => dummyBody

/-- Modelled from the spec: the clamp policy applied to the potential of a
near-singular pair would use the floor distance r_min in place of r. -/
def spec_clamp_pair_potential (bi bj : Body) : ℝ :=
  -(G * bi.mass * bj.mass / r_min)

/-- Modelled from the spec: the clamp policy applied to the force of a
near-singular pair uses r_min for both r and r^2 while keeping the
original direction vector. -/
def spec_clamp_pair_force (bi bj : Body) : Vec3 :=
  (G * bi.mass * bj.mass / r_min ^ 2 * (bj.x - bi.x) / r_min,
   G * bi.mass * bj.mass / r_min ^ 2 * (bj.y - bi.y) / r_min,
   G * bi.mass * bj.mass / r_min ^ 2 * (bj.z - bi.z) / r_min)

/-- First body of the near-singular concrete pair: unit mass at the origin. -/
def cexBodyA : Body := ⟨0, 0, 0, 0, 0, 0, 1⟩

/-- Second body of the near-singular concrete pair: unit mass 500 km away,
well below the 1e6 m softening floor. -/
def cexBodyB : Body := ⟨500000, 0, 0, 0, 0, 0, 1⟩

end

/-! Helper lemmas. -/

theorem getD_set_self {α : Type} (l : List α) (i : ℕ) (a d : α) (h : i < l.length) :
    (l.set i a).getD i d = a := by
  rw [List.getD_eq_getElem _ _ (by simpa using h)]
  simp

theorem getD_set_ne {α : Type} (l : List α) (i j : ℕ) (a d : α) (hne : i ≠ j)
    (hj : j < l.length) :
    (l.set i a).getD j d = l.getD j d := by
  rw [List.getD_eq_getElem _ _ (by simpa using hj), List.getD_eq_getElem _ _ hj]
  simp [List.getElem_set_ne hne]

theorem potential_loop_fst (store : List Body) (acc : ℝ) (l : List (ℕ × ℕ)) :
    (potential_loop store acc l).1 = store := by
  induction l generalizing acc with
  | nil => rfl
  | cons ij rest ih => exact ih _

theorem compute_total_energy_fst (bodies : List Body) :
    (compute_total_energy bodies).1 = bodies := by
  simp [compute_total_energy, potential_loop_fst]

theorem apply_pair_length (bodies : List Body) (forces : List Vec3) (i j : ℕ) :
    (apply_pair bodies forces i j).length = forces.length := by
  simp [apply_pair]

theorem forces_fold_length (bodies : List Body) (l : List (ℕ × ℕ)) (forces : List Vec3) :
    (l.foldl (fun fs ij => apply_pair bodies fs ij.1 ij.2) forces).length = forces.length := by
  induction l generalizing forces with
  | nil => rfl
  | cons ij rest ih => rw [List.foldl_cons, ih, apply_pair_length]

theorem compute_forces_length (bodies : List Body) :
    (compute_forces bodies).length = bodies.length := by
  simp [compute_forces, forces_fold_length]

theorem update_velocities_map_mass (dt : ℝ) (bodies : List Body) (forces : List Vec3)
    (h : bodies.length ≤ forces.length) :
    (update_velocities bodies forces dt).map Body.mass = bodies.map Body.mass := by
  induction bodies generalizing forces with
  | nil => rfl
  | cons b bs ih =>
      cases forces with
      | nil => simp at h
      | cons f fs =>
          simp only [update_velocities, List.zipWith_cons_cons, List.map_cons] at ih ⊢
          rw [ih fs (by simpa using Nat.le_of_succ_le_succ h)]

theorem update_positions_map_mass (dt : ℝ) (bodies : List Body) :
    (update_positions bodies dt).map Body.mass = bodies.map Body.mass := by
  simp [update_positions, List.map_map, Function.comp]

theorem simulation_step_map_mass (bodies : List Body) (dt : ℝ) :
    (simulation_step bodies dt).map Body.mass = bodies.map Body.mass := by
  rw [simulation_step, integrate_step, update_positions_map_mass,
    update_velocities_map_mass dt bodies (compute_forces bodies)
      (le_of_eq (compute_forces_length bodies).symm)]

theorem simulate_map_mass (dt : ℝ) (n : ℕ) (bodies : List Body) :
    (simulate bodies n dt).map Body.mass = bodies.map Body.mass := by
  induction n generalizing bodies with
  | zero => rfl
  | succ m ih => rw [simulate, ih, simulation_step_map_mass]

theorem simulate_length (bodies : List Body) (n : ℕ) (dt : ℝ) :
    (simulate bodies n dt).length = bodies.length := by
  have h := congrArg List.length (simulate_map_mass dt n bodies)
  simpa using h

theorem create_solar_system_length (randB : ℕ → Body) (num_bodies : ℤ) :
    (create_solar_system randB num_bodies).length = 1 + (num_bodies - 1).toNat := by
  simp [create_solar_system, Nat.add_comm]

/-! Claim theorems. -/

/-- C5: running the simulation loop with num_steps = 0 returns the Body
sequence with every body unchanged, and the pre-run and post-run energy
samples (kinetic, potential, total) are equal. -/
theorem zero_steps_identity (bodies : List Body) (dt : ℝ) :
    simulate bodies 0 dt = bodies ∧
    (compute_total_energy (simulate bodies 0 dt)).2 = (compute_total_energy bodies).2 :=
  ⟨rfl, rfl⟩

/-- C8: the Energy Diagnostic is read-only: compute_total_energy returns the
body store exactly as it received it, leaving every field of every body
unchanged. -/
theorem energy_diagnostic_read_only (bodies : List Body) :
    (compute_total_energy bodies).1 = bodies :=
  compute_total_energy_fst bodies

/-- C1 counterexample: invoked with num_steps = -1 < 0, the simulation driver
raises no ConfigurationError; the claimed validation does not exist in the
code. -/
theorem config_error_cex :
    (-1 : ℤ) < 0 ∧
    is_configuration_error (run_simulation default_rand 1000 (-1) 86400) = false :=
  ⟨by decide, rfl⟩

/-- C1 amended: run_simulation performs no parameter validation and never
raises a ConfigurationError, for invalid parameters included; a negative
num_steps merely makes the step loop run zero iterations, so the final body
store equals the freshly created one. -/
theorem run_simulation_no_validation (randB : ℕ → Body) (num_bodies num_steps : ℤ)
    (dt : ℝ) :
    is_configuration_error (run_simulation randB num_bodies num_steps dt) = false ∧
    (num_steps < 0 →
      Except.map RunResult.finalBodies (run_simulation randB num_bodies num_steps dt) =
        Except.ok (create_solar_system randB num_bodies)) := by
  refine ⟨rfl, fun h => ?_⟩
  have h0 : num_steps.toNat = 0 := Int.toNat_of_nonpos (le_of_lt h)
  simp [run_simulation, h0, simulate, compute_total_energy_fst, Except.map]

/-- C1 witness: the amended theorem applied at num_steps = -5. -/
theorem run_simulation_no_validation_witness :
    is_configuration_error (run_simulation default_rand 50 (-5) 86400) = false ∧
    Except.map RunResult.finalBodies (run_simulation default_rand 50 (-5) 86400) =
      Except.ok (create_solar_system default_rand 50) :=
  ⟨(run_simulation_no_validation default_rand 50 (-5) 86400).1,
   (run_simulation_no_validation default_rand 50 (-5) 86400).2 (by decide)⟩

/-- C6: for a Body sequence with fewer than two bodies, compute_forces
returns an accumulator of the same length in which every force vector is
exactly (0, 0, 0), without any error. -/
theorem compute_forces_small (bodies : List Body) (h : bodies.length < 2) :
    compute_forces bodies = List.replicate bodies.length vzero := by
  cases bodies with
  | nil => rfl
  | cons a t =>
      cases t with
      | nil => rfl
      | cons b t2 => simp at h; omega

/-- C6 witness: the theorem applied to a single-body sequence. -/
theorem compute_forces_small_witness :
    ([dummyBody] : List Body).length < 2 ∧
    compute_forces [dummyBody] = List.replicate ([dummyBody] : List Body).length vzero :=
  ⟨by decide, compute_forces_small [dummyBody] (by decide)⟩

/-- C9: for valid parameters (N >= 1), the final body store of run_simulation
has length exactly N, and the step loop preserves the length of any body
sequence for any number of steps, zero included. -/
theorem run_returns_n_bodies (randB : ℕ → Body) (num_bodies num_steps : ℤ) (dt : ℝ)
    (bodies : List Body) (n : ℕ) (h : 1 ≤ num_bodies) :
    Except.map (fun r => (r.finalBodies.length : ℤ))
        (run_simulation randB num_bodies num_steps dt) = Except.ok num_bodies ∧
    (simulate bodies n dt).length = bodies.length := by
  refine ⟨?_, simulate_length bodies n dt⟩
  simp only [run_simulation, Except.map, compute_total_energy_fst, simulate_length,
    create_solar_system_length]
  have h1 : ((num_bodies - 1).toNat : ℤ) = num_bodies - 1 :=
    Int.toNat_of_nonneg (by omega)
  congr 1
  push_cast [h1]
  ring

/-- C9 witness: the theorem applied at N = 2 with 3 steps. -/
theorem run_returns_n_bodies_witness :
    (1 : ℤ) ≤ 2 ∧
    (Except.map (fun r => (r.finalBodies.length : ℤ))
        (run_simulation default_rand 2 3 86400) = Except.ok 2 ∧
     (simulate [dummyBody] 4 86400).length = ([dummyBody] : List Body).length) :=
  ⟨by decide, run_returns_n_bodies default_rand 2 3 86400 [dummyBody] 4 (by decide)⟩

/-- C10: one integration step (velocity update then position update) leaves
every body's mass unchanged, and the mass > 0 invariant of the initial
sequence is preserved across every number of simulation steps. -/
theorem integration_preserves_mass (bodies : List Body) (forces : List Vec3) (dt : ℝ)
    (n : ℕ) (hlen : bodies.length ≤ forces.length)
    (hpos : ∀ b ∈ bodies, 0 < b.mass) :
    (integrate_step bodies forces dt).map Body.mass = bodies.map Body.mass ∧
    ∀ b ∈ simulate bodies n dt, 0 < b.mass := by
  constructor
  · rw [integrate_step, update_positions_map_mass,
      update_velocities_map_mass dt bodies forces hlen]
  · intro b hb
    have hm : b.mass ∈ bodies.map Body.mass := by
      rw [← simulate_map_mass dt n bodies]
      exact List.mem_map_of_mem Body.mass hb
    rcases List.mem_map.mp hm with ⟨a, ha, hma⟩
    rw [← hma]
    exact hpos a ha

/-- C10 witness: the theorem applied to a one-body store with a concrete
force accumulator. -/
theorem integration_preserves_mass_witness :
    ([Body.mk 0 0 0 0 0 0 3] : List Body).length ≤
        ([((1 : ℝ), (2 : ℝ), (3 : ℝ))] : List Vec3).length ∧
    ((integrate_step [Body.mk 0 0 0 0 0 0 3] [((1 : ℝ), (2 : ℝ), (3 : ℝ))] 86400).map
        Body.mass = ([Body.mk 0 0 0 0 0 0 3] : List Body).map Body.mass ∧
     ∀ b ∈ simulate [Body.mk 0 0 0 0 0 0 3] 2 86400, 0 < b.mass) :=
  ⟨by decide,
   integration_preserves_mass [Body.mk 0 0 0 0 0 0 3] [((1 : ℝ), (2 : ℝ), (3 : ℝ))]
     86400 2 (by decide)
     (by intro b hb; simp at hb; rw [hb]; norm_num)⟩

/-- C4: for every pair (i, j) with i < j processed by the Force Engine's
inner loop, the vector added to accumulator[i] is the exact negation of the
vector added to accumulator[j] (Newton's third law, exact equality). -/
theorem newton_third_law (bodies : List Body) (forces : List Vec3) (i j : ℕ)
    (hij : i < j) (hj : j < forces.length) :
    vsub ((apply_pair bodies forces i j).getD i vzero) (forces.getD i vzero) =
      vneg (vsub ((apply_pair bodies forces i j).getD j vzero) (forces.getD j vzero)) := by
  have hi : i < forces.length := Nat.lt_trans hij hj
  have hne : i ≠ j := Nat.ne_of_lt hij
  simp only [apply_pair]
  rw [getD_set_ne _ _ _ _ _ (Ne.symm hne) (by simpa using hi),
    getD_set_self _ _ _ _ hi,
    getD_set_self _ _ _ _ (by simpa using hj),
    getD_set_ne _ _ _ _ _ hne hj]
  simp only [vadd, vsub, vneg, Prod.ext_iff]
  refine ⟨by ring, by ring, by ring⟩

/-- C4 witness: the theorem applied at the pair (0, 1) of a two-slot
accumulator. -/
theorem newton_third_law_witness :
    0 < 1 ∧ 1 < ([((1 : ℝ), (2 : ℝ), (3 : ℝ)), ((4 : ℝ), (5 : ℝ), (6 : ℝ))] : List Vec3).length ∧
    vsub ((apply_pair [] [((1 : ℝ), (2 : ℝ), (3 : ℝ)), ((4 : ℝ), (5 : ℝ), (6 : ℝ))] 0 1).getD 0 vzero)
        (([((1 : ℝ), (2 : ℝ), (3 : ℝ)), ((4 : ℝ), (5 : ℝ), (6 : ℝ))] : List Vec3).getD 0 vzero) =
      vneg (vsub ((apply_pair [] [((1 : ℝ), (2 : ℝ), (3 : ℝ)), ((4 : ℝ), (5 : ℝ), (6 : ℝ))] 0 1).getD 1 vzero)
        (([((1 : ℝ), (2 : ℝ), (3 : ℝ)), ((4 : ℝ), (5 : ℝ), (6 : ℝ))] : List Vec3).getD 1 vzero)) :=
  ⟨by decide, by decide,
   newton_third_law [] [((1 : ℝ), (2 : ℝ), (3 : ℝ)), ((4 : ℝ), (5 : ℝ), (6 : ℝ))] 0 1
     (by decide) (by decide)⟩

/-- C3: one integration step first sets the new velocity
v' = v + (force/mass)*dt, then sets the new position to x + v'*dt using the
just-updated velocity (semi-implicit / symplectic-Euler ordering). -/
theorem integrator_semi_implicit (bodies : List Body) (forces : List Vec3) (dt : ℝ)
    (i : ℕ) (hib : i < bodies.length) (hif : i < forces.length) :
    (integrate_step bodies forces dt).getD i dummyBody =
      { x := (bodies.getD i dummyBody).x +
          ((bodies.getD i dummyBody).vx +
            (forces.getD i vzero).1 / (bodies.getD i dummyBody).mass * dt) * dt
        y := (bodies.getD i dummyBody).y +
          ((bodies.getD i dummyBody).vy +
            (forces.getD i vzero).2.1 / (bodies.getD i dummyBody).mass * dt) * dt
        z := (bodies.getD i dummyBody).z +
          ((bodies.getD i dummyBody).vz +
            (forces.getD i vzero).2.2 / (bodies.getD i dummyBody).mass * dt) * dt
        vx := (bodies.getD i dummyBody).vx +
          (forces.getD i vzero).1 / (bodies.getD i dummyBody).mass * dt
        vy := (bodies.getD i dummyBody).vy +
          (forces.getD i vzero).2.1 / (bodies.getD i dummyBody).mass * dt
        vz := (bodies.getD i dummyBody).vz +
          (forces.getD i vzero).2.2 / (bodies.getD i dummyBody).mass * dt
        mass := (bodies.getD i dummyBody).mass } := by
  have hiv : i < (update_velocities bodies forces dt).length := by
    simp only [update_velocities, List.length_zipWith]
    omega
  have hip : i < (integrate_step bodies forces dt).length := by
    simp only [integrate_step, update_positions, List.length_map]
    exact hiv
  rw [List.getD_eq_getElem _ _ hip, List.getD_eq_getElem _ _ hib,
    List.getD_eq_getElem _ _ hif]
  simp [integrate_step, update_positions, update_velocities, List.getElem_zipWith]

/-- C3 witness: the theorem applied to a concrete one-body store and a
concrete force accumulator. -/
theorem integrator_semi_implicit_witness :
    0 < ([Body.mk 1 2 3 4 5 6 2] : List Body).length ∧
    0 < ([((8 : ℝ), (10 : ℝ), (12 : ℝ))] : List Vec3).length ∧
    (integrate_step [Body.mk 1 2 3 4 5 6 2] [((8 : ℝ), (10 : ℝ), (12 : ℝ))] 1).getD 0 dummyBody =
      { x := (([Body.mk 1 2 3 4 5 6 2] : List Body).getD 0 dummyBody).x +
          ((([Body.mk 1 2 3 4 5 6 2] : List Body).getD 0 dummyBody).vx +
            (([((8 : ℝ), (10 : ℝ), (12 : ℝ))] : List Vec3).getD 0 vzero).1 /
              (([Body.mk 1 2 3 4 5 6 2] : List Body).getD 0 dummyBody).mass * 1) * 1
        y := (([Body.mk 1 2 3 4 5 6 2] : List Body).getD 0 dummyBody).y +
          ((([Body.mk 1 2 3 4 5 6 2] : List Body).getD 0 dummyBody).vy +
            (([((8 : ℝ), (10 : ℝ), (12 : ℝ))] : List Vec3).getD 0 vzero).2.1 /
              (([Body.mk 1 2 3 4 5 6 2] : List Body).getD 0 dummyBody).mass * 1) * 1
        z := (([Body.mk 1 2 3 4 5 6 2] : List Body).getD 0 dummyBody).z +
          ((([Body.mk 1 2 3 4 5 6 2] : List Body).getD 0 dummyBody).vz +
            (([((8 : ℝ), (10 : ℝ), (12 : ℝ))] : List Vec3).getD 0 vzero).2.2 /
              (([Body.mk 1 2 3 4 5 6 2] : List Body).getD 0 dummyBody).mass * 1) * 1
        vx := (([Body.mk 1 2 3 4 5 6 2] : List Body).getD 0 dummyBody).vx +
          (([((8 : ℝ), (10 : ℝ), (12 : ℝ))] : List Vec3).getD 0 vzero).1 /
            (([Body.mk 1 2 3 4 5 6 2] : List Body).getD 0 dummyBody).mass * 1
        vy := (([Body.mk 1 2 3 4 5 6 2] : List Body).getD 0 dummyBody).vy +
          (([((8 : ℝ), (10 : ℝ), (12 : ℝ))] : List Vec3).getD 0 vzero).2.1 /
            (([Body.mk 1 2 3 4 5 6 2] : List Body).getD 0 dummyBody).mass * 1
        vz := (([Body.mk 1 2 3 4 5 6 2] : List Body).getD 0 dummyBody).vz +
          (([((8 : ℝ), (10 : ℝ), (12 : ℝ))] : List Vec3).getD 0 vzero).2.2 /
            (([Body.mk 1 2 3 4 5 6 2] : List Body).getD 0 dummyBody).mass * 1
        mass := (([Body.mk 1 2 3 4 5 6 2] : List Body).getD 0 dummyBody).mass } :=
  ⟨by decide, by decide,
   integrator_semi_implicit [Body.mk 1 2 3 4 5 6 2] [((8 : ℝ), (10 : ℝ), (12 : ℝ))] 1 0
     (by decide) (by decide)⟩

/-- C7: for two bodies at identical positions with positive masses, the
softening floor clamps the separation to r_min before any division, the
divisor is nonzero, and the pair's force contribution is the finite zero
vector: no division by zero occurs. -/
theorem coincident_bodies_safe (bi bj : Body)
    (hx : bi.x = bj.x) (hy : bi.y = bj.y) (hz : bi.z = bj.z)
    (hmi : 0 < bi.mass) (hmj : 0 < bj.mass) :
    softened_r bi bj = r_min ∧ softened_r_squared bi bj = r_min ^ 2 ∧
    softened_r bi bj ≠ 0 ∧ pair_force bi bj = vzero := by
  have hdx : bj.x - bi.x = 0 := by rw [hx]; ring
  have hdy : bj.y - bi.y = 0 := by rw [hy]; ring
  have hdz : bj.z - bi.z = 0 := by rw [hz]; ring
  have hraw : raw_r_squared bi bj = 0 := by simp [raw_r_squared, hdx, hdy, hdz]
  have hlt : Real.sqrt (raw_r_squared bi bj) < r_min := by
    rw [hraw, Real.sqrt_zero]
    norm_num [r_min]
  refine ⟨by simp [softened_r, if_pos hlt], by simp [softened_r_squared, if_pos hlt],
    ?_, by simp [pair_force, hdx, hdy, hdz, vzero]⟩
  rw [softened_r, if_pos hlt]
  norm_num [r_min]

/-- C7 witness: the theorem applied to two concrete coincident bodies. -/
theorem coincident_bodies_safe_witness :
    (Body.mk 0 0 0 0 0 0 1).x = (Body.mk 0 0 0 7 8 9 2).x ∧
    (0 : ℝ) < (Body.mk 0 0 0 0 0 0 1).mass ∧
    (softened_r (Body.mk 0 0 0 0 0 0 1) (Body.mk 0 0 0 7 8 9 2) = r_min ∧
     softened_r_squared (Body.mk 0 0 0 0 0 0 1) (Body.mk 0 0 0 7 8 9 2) = r_min ^ 2 ∧
     softened_r (Body.mk 0 0 0 0 0 0 1) (Body.mk 0 0 0 7 8 9 2) ≠ 0 ∧
     pair_force (Body.mk 0 0 0 0 0 0 1) (Body.mk 0 0 0 7 8 9 2) = vzero) :=
  ⟨rfl, by norm_num,
   coincident_bodies_safe (Body.mk 0 0 0 0 0 0 1) (Body.mk 0 0 0 7 8 9 2)
     rfl rfl rfl (by norm_num) (by norm_num)⟩

/-- C2 counterexample: for the concrete pair at separation 500 km (below the
softening floor r_min = 1e6 m), the code neither clamps both computations
nor excludes the pair from both: the Force Engine clamps (nonzero force)
while the Energy Diagnostic excludes the pair (zero potential), so the
claimed uniform-policy statement is false. -/
theorem softening_uniformity_cex :
    Real.sqrt (raw_r_squared cexBodyA cexBodyB) < r_min ∧
    ¬ ((pair_force cexBodyA cexBodyB = spec_clamp_pair_force cexBodyA cexBodyB ∧
        pair_potential cexBodyA cexBodyB = spec_clamp_pair_potential cexBodyA cexBodyB) ∨
       (pair_force cexBodyA cexBodyB = vzero ∧ pair_potential cexBodyA cexBodyB = 0)) := by
  have hraw : raw_r_squared cexBodyA cexBodyB = 500000 ^ 2 := by
    norm_num [raw_r_squared, cexBodyA, cexBodyB]
  have hsqrt : Real.sqrt (raw_r_squared cexBodyA cexBodyB) = 500000 := by
    rw [hraw, Real.sqrt_sq]
    norm_num
  have hlt : Real.sqrt (raw_r_squared cexBodyA cexBodyB) < r_min := by
    rw [hsqrt]
    norm_num [r_min]
  have hpot : pair_potential cexBodyA cexBodyB = 0 := by
    rw [pair_potential, if_neg (not_lt.mpr (le_of_lt hlt))]
  have hsr : softened_r cexBodyA cexBodyB = r_min := by rw [softened_r, if_pos hlt]
  have hsrs : softened_r_squared cexBodyA cexBodyB = r_min ^ 2 := by
    rw [softened_r_squared, if_pos hlt]
  have hforce1 : (pair_force cexBodyA cexBodyB).1 ≠ 0 := by
    simp only [pair_force, hsr, hsrs]
    norm_num [cexBodyA, cexBodyB, G, r_min]
  have hspec : spec_clamp_pair_potential cexBodyA cexBodyB ≠ 0 := by
    norm_num [spec_clamp_pair_potential, cexBodyA, cexBodyB, G, r_min]
  refine ⟨hlt, ?_⟩
  rintro (⟨_, hp⟩ | ⟨hf, _⟩)
  · exact hspec (hp.symm.trans hpot)
  · exact hforce1 (by rw [hf]; rfl)

/-- C2 amended: the two softening policies are not uniform: for every pair
below the floor, compute_forces clamps the separation to r_min (its pair
contribution equals the spec's clamp-policy force), while
compute_total_energy excludes the pair (its pair contribution to the
potential is zero). -/
theorem softening_policies_differ (bi bj : Body)
    (h : Real.sqrt (raw_r_squared bi bj) < r_min) :
    pair_force bi bj = spec_clamp_pair_force bi bj ∧ pair_potential bi bj = 0 := by
  constructor
  · simp [pair_force, spec_clamp_pair_force, softened_r, softened_r_squared, if_pos h]
  · rw [pair_potential, if_neg (not_lt.mpr (le_of_lt h))]

/-- C2 witness: the amended theorem applied to the concrete 500 km pair. -/
theorem softening_policies_differ_witness :
    Real.sqrt (raw_r_squared cexBodyA cexBodyB) < r_min ∧
    (pair_force cexBodyA cexBodyB = spec_clamp_pair_force cexBodyA cexBodyB ∧
     pair_potential cexBodyA cexBodyB = 0) := by
  have hlt : Real.sqrt (raw_r_squared cexBodyA cexBodyB) < r_min := by
    rw [show raw_r_squared cexBodyA cexBodyB = 500000 ^ 2 by
        norm_num [raw_r_squared, cexBodyA, cexBodyB],
      Real.sqrt_sq (by norm_num : (0 : ℝ) ≤ 500000)]
    norm_num [r_min]
  exact ⟨hlt, softening_policies_differ cexBodyA cexBodyB hlt⟩
